import Mathlib

/-!
Verification of the ODT parser's table-linearization and nested-list
formatting core (`deepdoc/parser/odt_parser.py`).

The Python source is shallowly embedded below.  Strings are manipulated
through their underlying `List Char`, with hand-rolled, kernel-reducible
counterparts of the Python primitives the source uses (`str.strip`,
`str.lower`, `in`, `str.join`) so that every definition evaluates by
`decide` / `rfl`.  The external tokenizer (`rag_tokenizer.tokenize` /
`rag_tokenizer.tag`) is an external collaborator of the file under
verification and is passed in as a pair of function parameters, exactly
as the specification's interface section describes.
-/

namespace OdtParse

/-- ASCII whitespace set of Python's `str.strip` (space, tab, newline,
carriage return, vertical tab, form feed). -/
def pySpace (c : Char) : Bool :=
  c == ' ' || c == '\t' || c == '\n' || c == '\r' || c == '\x0b' || c == '\x0c'

/-- Python `s.strip()`: drop leading and trailing whitespace. -/
def pyStrip (s : String) : String :=
  ⟨((s.data.dropWhile pySpace).reverse.dropWhile pySpace).reverse⟩

/-- ASCII lowering of one character, as Python `str.lower` acts on ASCII. -/
def lowChar (c : Char) : Char :=
  if 'A' ≤ c && c ≤ 'Z' then Char.ofNat (c.toNat + 32) else c

/-- Python `s.lower()` (ASCII fragment; style names in the source are ASCII). -/
def strLower (s : String) : String := ⟨s.data.map lowChar⟩

/-- Substring occurrence test on character lists: `pat` occurs somewhere in
the second argument.  This is Python `s.find(pat) >= 0` / `pat in s`. -/
def containsSub (pat : List Char) : List Char → Bool
  | [] => pat.isEmpty
  | c :: rest => pat.isPrefixOf (c :: rest) || containsSub pat rest

/-- Python `pat in s` on strings. -/
def containsSubStr (pat s : String) : Bool := containsSub pat.data s.data

/-- Python `sep.join(l)`. -/
def joinSep (sep : String) : List String → String
  | [] => ""
  | [x] => x
  | x :: y :: rest => x ++ sep ++ joinSep sep (y :: rest)

/-!
## Cell type classifier (`blockType`, source lines 94-122)

Each of the twelve regular expressions of the source is fully anchored
(`^ ... $`), so Python's `re.search` succeeds exactly when the whole
string matches the body — or, because Python's `$` also asserts just
before a final newline, when the string minus a single trailing newline
matches.  Each pattern body is translated structurally below.
-/

/-- Consume `(20|19)[0-9]{2}` from the front, returning the remainder. -/
def yearHead : List Char → Option (List Char)
  | c1 :: c2 :: c3 :: c4 :: rest =>
    if ((c1 == '2' && c2 == '0') || (c1 == '1' && c2 == '9'))
        && c3.isDigit && c4.isDigit then some rest else none
  | _ => none

/-- Character class `[年 / -]` (year separator). -/
def sepYear (c : Char) : Bool := c == '年' || c == '/' || c == '-'

/-- Character class `[月 / -]` (month separator). -/
def sepMonth (c : Char) : Bool := c == '月' || c == '/' || c == '-'

/-- Consume `[0-9]{1,2}` from the front; both possible remainders are
returned (the regex engine backtracks over the two lengths). -/
def d12 : List Char → List (List Char)
  | [] => []
  | c :: rest =>
    if c.isDigit then
      match rest with
      | c2 :: rest2 => if c2.isDigit then [rest, rest2] else [rest]
      | [] => [rest]
    else []

/-- Pattern `^(20|19)[0-9]{2}[年 / -][0-9]{1,2}[月 / -][0-9]{1,2}日*$`. -/
def p1M (cs : List Char) : Bool :=
  match yearHead cs with
  | none => false
  | some r1 =>
    match r1 with
    | s1 :: r2 =>
      sepYear s1 && (d12 r2).any (fun r3 =>
        match r3 with
        | s2 :: r4 =>
          sepMonth s2 && (d12 r4).any (fun r5 => r5.all (fun c => c == '日'))
        | [] => false)
    | [] => false

/-- Pattern `^(20|19)[0-9]{2}年$`. -/
def p2M (cs : List Char) : Bool :=
  match yearHead cs with
  | some r => r == ['年']
  | none => false

/-- Pattern `^(20|19)[0-9]{2}[年 / -][0-9]{1,2}月*$`. -/
def p3M (cs : List Char) : Bool :=
  match yearHead cs with
  | some (s1 :: r2) =>
    sepYear s1 && (d12 r2).any (fun r3 => r3.all (fun c => c == '月'))
  | _ => false

/-- Pattern `^[0-9]{1,2}[月 / -][0-9]{1,2}日*$`. -/
def p4M (cs : List Char) : Bool :=
  (d12 cs).any (fun r1 =>
    match r1 with
    | s1 :: r2 =>
      sepMonth s1 && (d12 r2).any (fun r3 => r3.all (fun c => c == '日'))
    | [] => false)

/-- Character class `[一二三四1-4]` (quarter numeral). -/
def quarterC (c : Char) : Bool :=
  c == '一' || c == '二' || c == '三' || c == '四' ||
  c == '1' || c == '2' || c == '3' || c == '4'

/-- Pattern `^第*[一二三四1-4]季度$`.  Greedy `第*` is safe: the quarter
class does not contain `第`. -/
def p5M (cs : List Char) : Bool :=
  match cs.dropWhile (fun c => c == '第') with
  | q :: r => quarterC q && r == ['季', '度']
  | [] => false

/-- Pattern `^(20|19)[0-9]{2}年*[一二三四1-4]季度$`. -/
def p6M (cs : List Char) : Bool :=
  match yearHead cs with
  | some r1 =>
    (match r1.dropWhile (fun c => c == '年') with
     | q :: r => quarterC q && r == ['季', '度']
     | [] => false)
  | none => false

/-- Pattern `^(20|19)[0-9]{2}[ABCDE]$`. -/
def p7M (cs : List Char) : Bool :=
  match yearHead cs with
  | some [c] => c == 'A' || c == 'B' || c == 'C' || c == 'D' || c == 'E'
  | _ => false

/-- Character class `[0-9.,+%/ -]`. -/
def nuC (c : Char) : Bool :=
  c.isDigit || c == '.' || c == ',' || c == '+' || c == '%' ||
  c == '/' || c == ' ' || c == '-'

/-- Pattern `^[0-9.,+%/ -]+$`. -/
def p8M (cs : List Char) : Bool := !cs.isEmpty && cs.all nuC

/-- Character class `[0-9A-Z/\._~-]`. -/
def caC (c : Char) : Bool :=
  c.isDigit || c.isUpper || c == '/' || c == '.' || c == '_' ||
  c == '~' || c == '-'

/-- Pattern `^[0-9A-Z/\._~-]+$`. -/
def p9M (cs : List Char) : Bool := !cs.isEmpty && cs.all caC

/-- Character class `[a-z' -]`. -/
def enC (c : Char) : Bool :=
  c.isLower || c == '\'' || c == ' ' || c == '-'

/-- Existence of a split `cs = u ++ v` with `u` drawn from `c1` and `v`
from `c2`; `req1`/`req2` demand the corresponding part be non-empty.
This is the backtracking semantics of `C1*C2+` / `C1+C2+` patterns. -/
def splitAny (cs : List Char) (c1 c2 : Char → Bool) (req1 req2 : Bool) : Bool :=
  (List.range (cs.length + 1)).any (fun i =>
    (!req1 || decide (0 < i)) && (!req2 || decide (i < cs.length)) &&
    (cs.take i).all c1 && (cs.drop i).all c2)

/-- Pattern `^[A-Z]*[a-z' -]+$`. -/
def p10M (cs : List Char) : Bool := splitAny cs Char.isUpper enC false true

/-- Character class `[0-9.,+-]` (leading part of the numeric-with-unit rule). -/
def neHeadC (c : Char) : Bool :=
  c.isDigit || c == '.' || c == ',' || c == '+' || c == '-'

/-- Character class `[0-9A-Za-z/$￥%<>（）()' -]`. -/
def neTailC (c : Char) : Bool :=
  c.isDigit || c.isUpper || c.isLower || c == '/' || c == '$' || c == '￥' ||
  c == '%' || c == '<' || c == '>' || c == '（' || c == '）' ||
  c == '(' || c == ')' || c == '\'' || c == ' ' || c == '-'

/-- Pattern `^[0-9.,+-]+[0-9A-Za-z/$￥%<>（）()' -]+$`. -/
def p11M (cs : List Char) : Bool := splitAny cs neHeadC neTailC true true

/-- Pattern `^.{1}$` — exactly one character; Python's `.` does not match
a newline. -/
def p12M (cs : List Char) : Bool :=
  match cs with
  | [c] => c != '\n'
  | _ => false

/-- Python `re.search` on a fully `^...$`-anchored pattern: the body must
span the whole string, or the whole string minus one trailing newline
(Python's `$` also matches just before a final newline). -/
def reSearchA (m : List Char → Bool) (s : String) : Bool :=
  m s.data ||
  (match s.data.getLast? with
   | some c => c == '\n' && m s.data.dropLast
   | none => false)

/-- The ordered rule table of `blockType` (source lines 95-108):
matcher together with the category it yields. -/
def patRules : List ((String → Bool) × String) :=
  [(reSearchA p1M, "Dt"), (reSearchA p2M, "Dt"), (reSearchA p3M, "Dt"),
   (reSearchA p4M, "Dt"), (reSearchA p5M, "Dt"), (reSearchA p6M, "Dt"),
   (reSearchA p7M, "DT"), (reSearchA p8M, "Nu"), (reSearchA p9M, "Ca"),
   (reSearchA p10M, "En"), (reSearchA p11M, "NE"), (reSearchA p12M, "Sg")]

/-- The `for p, n in pattern: if re.search(p, b): return n` loop. -/
def firstMatch : List ((String → Bool) × String) → String → Option String
  | [], _ => none
  | (p, n) :: rest, b => if p b then some n else firstMatch rest b

/-- Whether the rule at position `j` of the table matches `s`
(`false` when `j` is out of range). -/
def patMatchAt (s : String) (j : Nat) : Bool :=
  ((patRules[j]?).map (fun pr => pr.1 s)).getD false

/-- The cell classifier `blockType` (source lines 94-122).  `tokenize`
stands for `rag_tokenizer.tokenize(b).split()` and `tag` for
`rag_tokenizer.tag`, the two external lexical-analysis collaborators. -/
def blockType (tokenize : String → List String) (tag : String → String)
    (b : String) : String :=
  match firstMatch patRules b with
  | some n => n
  | none =>
    let tks := (tokenize b).filter (fun t => t.length > 1)
    if tks.length > 3 then
      if tks.length < 12 then "Tx" else "Lx"
    else if tks.length == 1 && tag (tks.headD "") == "nr" then "Nr"
    else "Ot"

/-- A fixed trivial tokenizer instance, used to state closed concrete facts
(the cells involved never reach the tokenizer fallback). -/
def tok0 : String → List String := fun _ => []

/-- A fixed trivial tagger instance. -/
def tag0 : String → String := fun _ => ""

/-!
## Table composition (`__compose_table_content`, source lines 91-174)

A table is a grid `rows : List (List String)` of already-stripped cell
texts (one inner list per `table:table-row`; `__extract_table_content`
drops rows with no cells, so every retained row is non-empty).  The
source wraps the grid in `pd.DataFrame(rows)`: pandas pads ragged rows
up to the maximal row length, the fill value of the object-dtype array
being `None`, which `str()` renders as the four-letter string `"None"`.
Cell access below (`cellOf`) reproduces `str(df.iloc[i, j])` including
that padding.
-/

/-- Number of columns of `pd.DataFrame(rows)`: the maximal row length.
Every `len(df.iloc[i, :])` in the source equals this. -/
def tableWidth (rows : List (List String)) : Nat :=
  rows.foldr (fun r acc => max r.length acc) 0

/-- The string `str(df.iloc[i, j])`: the cell when present, otherwise
the stringified `None` padding of the ragged grid. -/
def cellOf (rows : List (List String)) (i j : Nat) : String :=
  match rows[i]? with
  | some r => (r[j]?).getD "None"
  | none => "None"

/-- Classified types of all cells of rows `1 .. len-1` in iteration
order (`i` outer, `j` inner) — the population of the `max_type` vote,
source lines 127-128. -/
def allTypes (tok : String → List String) (tag : String → String)
    (rows : List (List String)) : List String :=
  (List.range' 1 (rows.length - 1)).flatMap (fun i =>
    (List.range (tableWidth rows)).map (fun j =>
      blockType tok tag (cellOf rows i j)))

/-- Distinct elements of a list in first-encountered order — the key
order of a Python `Counter` built from the list. -/
def firstSeen (l : List String) : List String :=
  l.foldl (fun acc x => if acc.contains x then acc else acc ++ [x]) []

/-- Python `max(Counter(l).items(), key=lambda x: x[1])[0]`: the value of
maximal multiplicity, ties resolved in favour of the first-encountered
value (Python's `max` keeps the first maximal item).  Returns `""` on an
empty list, where Python's `max` would raise `ValueError`; callers guard
that case. -/
def argmaxCount (l : List String) : String :=
  match firstSeen l with
  | [] => ""
  | d :: ds => ds.foldl (fun best x => if l.count x > l.count best then x else best) d

/-- The grid's dominant content type `max_type` (source lines 127-129). -/
def maxTypeOf (tok : String → List String) (tag : String → String)
    (rows : List (List String)) : String :=
  argmaxCount (allTypes tok tag rows)

/-- The majority cell type `tys` of one row (source lines 135-137). -/
def rowTypeOf (tok : String → List String) (tag : String → String)
    (rows : List (List String)) (r : Nat) : String :=
  argmaxCount ((List.range (tableWidth rows)).map (fun j =>
    blockType tok tag (cellOf rows r j)))

/-- The header row index list `hdrows` (source lines 132-139): row 0
always, plus — only when the dominant type is numeric — every further
row whose own majority type is not numeric. -/
def hdrowsOf (tok : String → List String) (tag : String → String)
    (rows : List (List String)) : List Nat :=
  0 :: (if maxTypeOf tok tag rows = "Nu" then
          (List.range' 1 (rows.length - 1)).filter
            (fun r => rowTypeOf tok tag rows r != "Nu")
        else [])

/-- Negative header offsets relative to data row `i`
(`hr = [r - i for r in hdrows]; hr = [r for r in hr if r < 0]`,
source lines 145-146). -/
def offsetsFor (tok : String → List String) (tag : String → String)
    (rows : List (List String)) (i : Nat) : List Int :=
  ((hdrowsOf tok tag rows).map (fun r => (r : Int) - (i : Int))).filter
    (fun h => h < 0)

/-- The backward gap scan of the source (lines 147-152): starting from
`t = len(hr) - 1`, while `t > 0`, if `hr[t] - hr[t-1] > 1` keep only
`hr[t:]` and stop, else decrement `t`. -/
def nearestRunAux (hr : List Int) : Nat → List Int
  | 0 => hr
  | t + 1 =>
    if (hr[t + 1]?).getD 0 - (hr[t]?).getD 0 > 1 then hr.drop (t + 1)
    else nearestRunAux hr t

/-- The contiguous header run the source retains for a data row. -/
def nearestRun (hr : List Int) : List Int := nearestRunAux hr (hr.length - 1)

/-- Modelled from the spec: walk the offsets from the one closest to the
data row backward, keeping them while consecutive offsets differ by at
most one. -/
def takeRun : Int → List Int → List Int
  | _, [] => []
  | prev, x :: xs => if prev - x > 1 then [] else x :: takeRun x xs

/-- Modelled from the spec (§4.3): the nearest contiguous block of
offsets — the longest suffix of `hr` whose adjacent gaps are at most
one, found by scanning from the offset closest to the data row. -/
def specNearestRun (hr : List Int) : List Int :=
  match hr.reverse with
  | [] => []
  | x :: xs => (x :: takeRun x xs).reverse

/-- Python `if x in t: continue; t.append(x)` de-duplication keeping
first-seen order (source lines 156-160). -/
def dedupFS (l : List String) : List String :=
  l.foldl (fun acc x => if acc.contains x then acc else acc ++ [x]) []

/-- Header label for data row `i`, column `j`, from a given offset run:
collect `str(df.iloc[i+h, j]).strip()` de-duplicated, join with commas,
and append `": "` when non-empty (source lines 155-164). -/
def labelFromRun (rows : List (List String)) (i j : Nat) (run : List Int) :
    String :=
  let vals := dedupFS (run.map (fun h => pyStrip (cellOf rows ((i : Int) + h).toNat j)))
  let t := joinSep "," vals
  if t == "" then t else t ++ ": "

/-- The header label `headers[j]` the source builds for data row `i`. -/
def headerLabel (tok : String → List String) (tag : String → String)
    (rows : List (List String)) (i j : Nat) : String :=
  labelFromRun rows i j (nearestRun (offsetsFor tok tag rows i))

/-- Modelled from the spec: the same label built from the spec's
description of the nearest contiguous header run. -/
def specHeaderLabel (tok : String → List String) (tag : String → String)
    (rows : List (List String)) (i j : Nat) : String :=
  labelFromRun rows i j (specNearestRun (offsetsFor tok tag rows i))

/-- Indices of the data rows: rows `1 .. len-1` not in `hdrows`
(the `if i in hdrows: continue` of source line 143). -/
def dataRowsOf (tok : String → List String) (tag : String → String)
    (rows : List (List String)) : List Nat :=
  (List.range' 1 (rows.length - 1)).filter
    (fun i => !((hdrowsOf tok tag rows).contains i))

/-- The linearized text line of data row `i`: non-empty cells prefixed
with their header labels, joined by `;` (source lines 165-170). -/
def lineOf (tok : String → List String) (tag : String → String)
    (rows : List (List String)) (i : Nat) : String :=
  joinSep ";" (((List.range (tableWidth rows)).filter
      (fun j => cellOf rows i j != "")).map
    (fun j => headerLabel tok tag rows i j ++ cellOf rows i j))

/-- All linearized data-row lines, in row order (`lines`, line 141-170). -/
def linesOf (tok : String → List String) (tag : String → String)
    (rows : List (List String)) : List String :=
  (dataRowsOf tok tag rows).map (lineOf tok tag rows)

/-- The table linearizer `__compose_table_content` (source lines 91-174).
`none` models the `ValueError` Python's `max` raises when the type vote
is empty (a grid of at least two rows all of which are empty) — a case
the extraction path never produces.  Otherwise: fewer than 2 rows gives
`[]`; more than 3 columns gives one entry per data row; else a single
newline-joined entry. -/
def composeTableContent (tok : String → List String) (tag : String → String)
    (rows : List (List String)) : Option (List String) :=
  if rows.length < 2 then some []
  else if allTypes tok tag rows = [] then none
  else some (if 3 < tableWidth rows then linesOf tok tag rows
             else [joinSep "\n" (linesOf tok tag rows)])

/-- The table extractor `__extract_table_content` (source lines 72-89)
after the XML step: rows with no cells are dropped, an empty grid gives
`[]`, otherwise the grid is composed. -/
def extractTableContent (tok : String → List String) (tag : String → String)
    (rawRows : List (List String)) : Option (List String) :=
  let rows := rawRows.filter (fun r => !r.isEmpty)
  if rows.isEmpty then some [] else composeTableContent tok tag rows

/-!
## Nested list formatter (`__extract_list_text`, source lines 37-70)

A `text:list` element carries a style name and a sequence of
`text:list-item` children; each item is the sequence of its direct
children, each a `text:p` paragraph (its `itertext` already joined) or a
nested `text:list`.  The loop of the source iterates
`list_element.findall('.//text:list-item')`, a descendant search: it
visits every list item of the subtree at every depth, in document
order, not only the direct items.  The recursion is embedded with a
fuel argument bounding the nesting depth; the wrapper `formatList`
passes `sizeOf`-derived fuel, which strictly dominates the depth of any
concrete tree, so the wrapper agrees with the terminating Python
recursion.
-/

/-- A child node of a list item. -/
inductive Node where
  | para (text : String)
  | list (styleName : String) (items : List (List Node))
deriving Repr

mutual

/-- Nesting depth of one node: paragraphs are flat, a nested list is one
deeper than its own items. -/
def nodeDepth : Node → Nat
  | Node.para _ => 0
  | Node.list _ items => 1 + itemsDepth items

/-- Nesting depth of an item sequence. -/
def itemsDepth : List (List Node) → Nat
  | [] => 0
  | item :: rest => max (childrenDepth item) (itemsDepth rest)

/-- Nesting depth of one item's child sequence. -/
def childrenDepth : List Node → Nat
  | [] => 0
  | c :: rest => max (nodeDepth c) (childrenDepth rest)

end

/-- All `text:list-item` descendants of the given items, in document
order, each as its child sequence — the result sequence of
`findall('.//text:list-item')` on an element with these direct items. -/
def allItemsF : Nat → List (List Node) → List (List Node)
  | 0, _ => []
  | f + 1, items =>
    items.foldr (fun item acc =>
      item :: item.foldr (fun c acc2 =>
        match c with
        | Node.para _ => acc2
        | Node.list _ its => allItemsF f its ++ acc2) [] ++ acc) []

/-- Python `'  ' * level`. -/
def indentOf (level : Nat) : String := joinSep "" (List.replicate level "  ")

/-- The recursive body of `__extract_list_text` (source lines 37-70),
fuel-indexed.  For each item found by the descendant search: the
stripped texts of its direct paragraphs plus the recursively formatted
lines of its direct nested lists (level + 1, orderedness re-derived from
the nested style name containing `num`); a non-empty collection emits a
bullet line and indented continuation lines; ordered numbering advances
only on emitting items. -/
def extractListText : Nat → List (List Node) → Nat → Bool → List String
  | 0, _, _, _ => []
  | f + 1, items, level, isOrdered =>
    let pfx := indentOf level
    ((allItemsF (f + 1) items).foldl (fun (st : List String × Nat) item =>
      let itemTexts := item.foldr (fun c acc =>
        match c with
        | Node.para t =>
          (if pyStrip t == "" then [] else [pyStrip t]) ++ acc
        | Node.list sn its =>
          extractListText f its (level + 1) (containsSubStr "num" (strLower sn)) ++ acc) []
      match itemTexts with
      | [] => st
      | t0 :: ts =>
        let bullet := if isOrdered then Nat.repr st.2 ++ "." else "•"
        (st.1 ++ (pfx ++ bullet ++ " " ++ t0) :: ts.map (fun t => pfx ++ "  " ++ t),
         if isOrdered then st.2 + 1 else st.2)) ([], 1)).1

/-- `__extract_list_text` on a list element with the given direct items:
the fuel passed strictly dominates the tree depth, so every recursive
descent of the source is fully replayed. -/
def formatList (items : List (List Node)) (level : Nat) (isOrdered : Bool) :
    List String :=
  extractListText (itemsDepth items + 1) items level isOrdered

/-!
## Document walker (`__call__`, source lines 176-266)

Container decoding (zip, XML) is external; what remains of `__call__`
once `content.xml` is parsed is: if the document has no
`office:body/office:text` element, return `([], [])`; otherwise walk the
body's top-level elements in order, dispatching paragraphs/headings,
lists and tables.  A section is a pair (text, image) with the image
always absent.
-/

/-- A top-level body element as the walker sees it. -/
inductive BodyElem where
  | para (text : String)
  | listEl (styleName : String) (items : List (List Node))
  | tableEl (rows : List (List String))
  | other
deriving Repr

/-- The walker of `__call__` after XML parsing (source lines 229-266);
`body?` is the result of the `office:body/office:text` lookup.  `none`
as a result propagates the error a degenerate table raises. -/
def odtParse (tok : String → List String) (tag : String → String)
    (body? : Option (List BodyElem)) :
    Option (List (String × Option Unit) × List (List String)) :=
  match body? with
  | none => some ([], [])
  | some elems =>
    elems.foldl (fun acc e =>
      match acc with
      | none => none
      | some (secs, tbls) =>
        match e with
        | BodyElem.para t =>
          let s := pyStrip t
          if s == "" then some (secs, tbls) else some (secs ++ [(s, none)], tbls)
        | BodyElem.listEl sn items =>
          let isOrd := containsSubStr "num" (strLower sn) ||
                       containsSubStr "number" (strLower sn)
          let ls := (formatList items 0 isOrd).filter (fun l => pyStrip l != "")
          some (secs ++ ls.map (fun l => (l, (none : Option Unit))), tbls)
        | BodyElem.tableEl rawRows =>
          match extractTableContent tok tag rawRows with
          | none => none
          | some tc =>
            if tc.isEmpty then some (secs, tbls) else some (secs, tbls ++ [tc])
        | BodyElem.other => some (secs, tbls)) (some ([], []))

/-!
## Helper lemmas
-/

/-- A rule loop returns the category of rule `i` whenever rule `i`
matches and no earlier rule does. -/
theorem firstMatch_eq_of (ps : List ((String → Bool) × String)) (b : String) :
    ∀ (i : Nat) (p : String → Bool) (c : String),
      ps[i]? = some (p, c) → p b = true →
      (∀ j, j < i → ((ps[j]?).map (fun pr => pr.1 b)).getD false = false) →
      firstMatch ps b = some c := by
  induction ps with
  | nil => intro i p c hget _ _; simp at hget
  | cons hd rest ih =>
    intro i p c hget hm hearlier
    obtain ⟨q, d⟩ := hd
    match i with
    | 0 =>
      simp only [List.getElem?_cons_zero, Option.some.injEq, Prod.mk.injEq] at hget
      unfold firstMatch
      rw [hget.1, hm]
      simp [hget.2]
    | Nat.succ i =>
      have h0 := hearlier 0 (Nat.succ_pos i)
      simp only [List.getElem?_cons_zero] at h0
      simp only [Option.map, Option.getD] at h0
      unfold firstMatch
      rw [h0]
      simp only [Bool.false_eq_true, if_false]
      refine ih i p c ?_ hm ?_
      · simpa using hget
      · intro j hj
        have := hearlier (j + 1) (by omega)
        simpa using this

/-- Whatever the rule loop returns is the category of one of its rules. -/
theorem firstMatch_mem (ps : List ((String → Bool) × String)) (b : String)
    (n : String) (h : firstMatch ps b = some n) : n ∈ ps.map Prod.snd := by
  induction ps with
  | nil => simp [firstMatch] at h
  | cons hd rest ih =>
    obtain ⟨q, d⟩ := hd
    unfold firstMatch at h
    by_cases hq : q b
    · rw [if_pos hq] at h
      simp only [Option.some.injEq] at h
      simp [← h]
    · rw [if_neg hq] at h
      simp [ih h]

/-- One backward step of the gap scan is unaffected by an element
appended behind the scanned range. -/
theorem nearestRunAux_append (l : List Int) (b : Int) :
    ∀ t, t < l.length →
      nearestRunAux (l ++ [b]) t = nearestRunAux l t ++ [b] := by
  intro t
  induction t with
  | zero => intro _; rfl
  | succ t ih =>
    intro ht
    have h1 : (l ++ [b])[t + 1]? = l[t + 1]? := by
      rw [List.getElem?_append, if_pos ht]
    have h2 : (l ++ [b])[t]? = l[t]? := by
      rw [List.getElem?_append, if_pos (by omega)]
    unfold nearestRunAux
    rw [h1, h2]
    by_cases hgap : (l[t + 1]?).getD 0 - (l[t]?).getD 0 > 1
    · rw [if_pos hgap, if_pos hgap, List.drop_append_of_le_length (by omega)]
    · rw [if_neg hgap, if_neg hgap, ih (by omega)]

/-- The source's backward gap scan computes exactly the run the
specification describes: the longest suffix of the offsets whose
adjacent gaps are at most one. -/
theorem nearestRun_eq_spec (l : List Int) : nearestRun l = specNearestRun l := by
  induction l using List.reverseRecOn with
  | nil => rfl
  | append_singleton l b ih =>
    rcases List.eq_nil_or_concat l with rfl | ⟨l', a, rfl⟩
    · rfl
    · rw [List.concat_eq_append] at ih ⊢
      have hL : nearestRun (l' ++ [a] ++ [b]) =
          nearestRunAux (l' ++ [a] ++ [b]) (l'.length + 1) := by
        unfold nearestRun
        congr 1
        simp
      have hget1 : (l' ++ [a] ++ [b])[l'.length + 1]? = some b := by
        have h := List.getElem?_concat_length (l' ++ [a]) b
        simpa using h
      have hget0 : (l' ++ [a] ++ [b])[l'.length]? = some a := by
        rw [List.getElem?_append, if_pos (by simp)]
        exact List.getElem?_concat_length l' a
      have hrev2 : (l' ++ [a] ++ [b]).reverse = b :: a :: l'.reverse := by simp
      have hrev1 : (l' ++ [a]).reverse = a :: l'.reverse := by simp
      rw [hL]
      unfold nearestRunAux
      rw [hget1, hget0]
      simp only [Option.getD_some]
      by_cases hgap : b - a > 1
      · rw [if_pos hgap]
        have hdrop : (l' ++ [a] ++ [b]).drop (l'.length + 1) = [b] := by
          have h := List.drop_left (l' ++ [a]) [b]
          rw [List.length_append] at h
          exact h
        rw [hdrop]
        unfold specNearestRun
        rw [hrev2]
        dsimp only
        rw [show takeRun b (a :: l'.reverse) = [] by
          unfold takeRun; rw [if_pos hgap]]
        rfl
      · rw [if_neg hgap]
        rw [nearestRunAux_append (l' ++ [a]) b l'.length (by simp)]
        have haux : nearestRunAux (l' ++ [a]) l'.length = nearestRun (l' ++ [a]) := by
          unfold nearestRun
          congr 1
          simp
        rw [haux, ih]
        unfold specNearestRun
        rw [hrev2, hrev1]
        dsimp only
        rw [show takeRun b (a :: l'.reverse) = a :: takeRun a l'.reverse by
          rw [takeRun, if_neg hgap]]
        simp

/-!
## Claim theorems
-/

/-- C1 (counterexample): for a list with one item containing text `A`
and a directly nested unordered list whose item contains `B`, the
formatter does not return `["• A", "  • B"]`. -/
theorem formatList_nested_claim_false :
    formatList [[Node.para "A", Node.list "Sub" [[Node.para "B"]]]] 0 false ≠
      ["• A", "  • B"] := by decide

/-- C1 (amended): the formatter returns `["• A", "    • B", "• B"]`: the
nested item's line is emitted as a continuation of the parent item with
the nested list's own level-1 indent plus the two-space continuation
indent (four spaces), and then emitted a second time as a fresh
level-0 bullet, because the item scan
`findall('.//text:list-item')` matches descendants at every depth, so
the nested item is visited both through the recursion and directly. -/
theorem formatList_nested_lines :
    formatList [[Node.para "A", Node.list "Sub" [[Node.para "B"]]]] 0 false =
      ["• A", "    • B", "• B"] := by decide

/-- C2 (counterexample): `blockType` classifies `"2024"` as numeric
(`"Nu"`), not as a date: the year-only rule's pattern
`^(20|19)[0-9]{2}年$` requires the trailing year marker character. -/
theorem blockType_2024_not_date :
    blockType tok0 tag0 "2024" = "Nu" ∧ blockType tok0 tag0 "2024" ≠ "Dt" :=
  ⟨by decide, by decide⟩

/-- C2 (amended): the classifier applies its rules in the fixed order
with the first match winning: whenever rule `i` matches `s` and no rule
before `i` matches `s`, the classifier returns rule `i`'s category — for
every tokenizer/tagger instance, since the fallback is not reached. -/
theorem blockType_first_match (tok : String → List String)
    (tag : String → String) (s : String) (i : Nat) (p : String → Bool)
    (c : String) (hget : patRules[i]? = some (p, c)) (hm : p s = true)
    (hearlier : ∀ j, j < i → patMatchAt s j = false) :
    blockType tok tag s = c := by
  unfold blockType
  rw [firstMatch_eq_of patRules s i p c hget hm hearlier]

/-- C2 (witness): rule 7 (0-based) is the numeric rule; it matches
`"2024"`, no earlier rule does, and `blockType` returns `"Nu"`. -/
theorem blockType_first_match_witness :
    patRules[7]? = some (reSearchA p8M, "Nu") ∧
    reSearchA p8M "2024" = true ∧
    (∀ j, j < 7 → patMatchAt "2024" j = false) ∧
    blockType tok0 tag0 "2024" = "Nu" :=
  ⟨rfl, by decide, by decide,
    blockType_first_match tok0 tag0 "2024" 7 _ _ rfl (by decide) (by decide)⟩

/-- C3: on the grid `[["Year","Revenue"],["2023","100"],["2024","120"]]`
(2 columns), the linearizer returns one combined block with the two
header-qualified row lines joined by a newline.  The tokenizer instance
is irrelevant here: every cell of the grid matches a pattern rule, so
the fallback path is never taken. -/
theorem compose_year_revenue :
    composeTableContent tok0 tag0
        [["Year", "Revenue"], ["2023", "100"], ["2024", "120"]] =
      some ["Year: 2023;Revenue: 100\nYear: 2024;Revenue: 120"] := by decide

/-- C9: the classifier is total and pure: every string receives exactly
one of the fixed categories, and re-invocation returns the same value. -/
theorem blockType_total_pure (tok : String → List String)
    (tag : String → String) (s : String) :
    blockType tok tag s ∈
        (["Dt", "DT", "Nu", "Ca", "En", "NE", "Sg", "Tx", "Lx", "Nr", "Ot"] :
          List String) ∧
    blockType tok tag s = blockType tok tag s := by
  refine ⟨?_, rfl⟩
  unfold blockType
  cases h : firstMatch patRules s with
  | some n =>
    dsimp only
    have hm := firstMatch_mem patRules s n h
    rw [show patRules.map Prod.snd =
      ["Dt", "Dt", "Dt", "Dt", "Dt", "Dt", "DT", "Nu", "Ca", "En", "NE", "Sg"]
      from rfl] at hm
    simp only [List.mem_cons, List.not_mem_nil, or_false] at hm ⊢
    tauto
  | none =>
    dsimp only
    split
    · split
      · decide
      · decide
    · split
      · decide
      · decide

/-- C10: when the parsed document has no `office:body/office:text`
element, the top-level call returns a pair of two empty sequences. -/
theorem odtParse_no_body (tok : String → List String)
    (tag : String → String) : odtParse tok tag none = some ([], []) := rfl

/-- C4: for every grid with at least 2 rows (and at least one column,
as every grid the extraction step produces has), header detection
includes row 0; a row `i ≥ 1` is in the header set exactly when the
dominant content type is numeric and row `i`'s own majority type is
not; and when the dominant type is not numeric the header set is
exactly `[0]`. -/
theorem hdrows_characterization (tok : String → List String)
    (tag : String → String) (rows : List (List String))
    (h2 : 2 ≤ rows.length) (_hw : 0 < tableWidth rows) :
    0 ∈ hdrowsOf tok tag rows ∧
    (∀ i, 1 ≤ i → i < rows.length →
      (i ∈ hdrowsOf tok tag rows ↔
        (maxTypeOf tok tag rows = "Nu" ∧ rowTypeOf tok tag rows i ≠ "Nu"))) ∧
    (maxTypeOf tok tag rows ≠ "Nu" → hdrowsOf tok tag rows = [0]) := by
  refine ⟨List.mem_cons_self 0 _, ?_, ?_⟩
  · intro i h1 hn
    unfold hdrowsOf
    by_cases hmax : maxTypeOf tok tag rows = "Nu"
    · rw [if_pos hmax]
      simp only [List.mem_cons, List.mem_filter, List.mem_range'_1,
        bne_iff_ne, ne_eq]
      constructor
      · rintro (rfl | ⟨⟨_, _⟩, hne⟩)
        · omega
        · exact ⟨hmax, hne⟩
      · rintro ⟨_, hne⟩
        exact Or.inr ⟨⟨h1, by omega⟩, hne⟩
    · rw [if_neg hmax]
      simp only [List.mem_cons, List.not_mem_nil, or_false]
      constructor
      · intro h0; omega
      · rintro ⟨h, _⟩; exact absurd h hmax
  · intro hmax
    unfold hdrowsOf
    rw [if_neg hmax]

/-- C4 (witness): on the year/revenue grid the hypotheses hold and row 0
is detected as a header row. -/
theorem hdrows_characterization_witness :
    2 ≤ ([["Year", "Revenue"], ["2023", "100"], ["2024", "120"]] :
      List (List String)).length ∧
    0 < tableWidth [["Year", "Revenue"], ["2023", "100"], ["2024", "120"]] ∧
    0 ∈ hdrowsOf tok0 tag0
        [["Year", "Revenue"], ["2023", "100"], ["2024", "120"]] :=
  ⟨by decide, by decide,
    (hdrows_characterization tok0 tag0
      [["Year", "Revenue"], ["2023", "100"], ["2024", "120"]]
      (by decide) (by decide)).1⟩

/-- C5: for every grid, data row and column, the header label the code
builds (negative offsets, backward gap scan, de-duplicated
comma-joined values, colon-space suffix when non-empty) equals the
label built from the specification's description of the nearest
contiguous header run. -/
theorem headerLabel_eq_spec (tok : String → List String)
    (tag : String → String) (rows : List (List String)) (i j : Nat) :
    headerLabel tok tag rows i j = specHeaderLabel tok tag rows i j := by
  unfold headerLabel specHeaderLabel
  rw [nearestRun_eq_spec]

/-- C6 (counterexample): a grid with one row and one column (at most 3
columns) does not return a single newline-joined entry — it returns no
entry at all, refuting the unqualified "every grid with at most 3
columns" reading. -/
theorem compose_narrow_one_row_no_entry :
    composeTableContent tok0 tag0 [["a"]] ≠
      some [joinSep "\n" (linesOf tok0 tag0 [["a"]])] := by decide

/-- C6 (amended): for every grid with at least 2 rows and at least one
column: with more than 3 columns the linearizer returns the per-row
lines as separate entries, one per data row; with at most 3 columns it
returns a single entry, the newline-join of the per-row lines.  (A grid
with fewer than 2 rows returns no entries at all.) -/
theorem compose_column_branching (tok : String → List String)
    (tag : String → String) (rows : List (List String))
    (h2 : 2 ≤ rows.length) (hw : 0 < tableWidth rows) :
    (3 < tableWidth rows →
      composeTableContent tok tag rows = some (linesOf tok tag rows) ∧
      (linesOf tok tag rows).length = (dataRowsOf tok tag rows).length) ∧
    (tableWidth rows ≤ 3 →
      composeTableContent tok tag rows =
        some [joinSep "\n" (linesOf tok tag rows)]) := by
  have hmem : blockType tok tag (cellOf rows 1 0) ∈ allTypes tok tag rows := by
    unfold allTypes
    refine List.mem_flatMap.2 ⟨1, List.mem_range'_1.2 ⟨le_refl 1, by omega⟩, ?_⟩
    exact List.mem_map.2 ⟨0, List.mem_range.2 hw, rfl⟩
  have hne := List.ne_nil_of_mem hmem
  constructor
  · intro h3
    constructor
    · unfold composeTableContent
      rw [if_neg (by omega), if_neg hne, if_pos h3]
    · unfold linesOf
      exact List.length_map _ _
  · intro h3
    unfold composeTableContent
    rw [if_neg (by omega), if_neg hne, if_neg (by omega)]

/-- C6 (witness): a 2-row, 4-column grid satisfies the hypotheses and
returns the per-row line entries. -/
theorem compose_column_branching_witness :
    2 ≤ ([["a", "b", "c", "d"], ["1", "2", "3", "4"]] :
      List (List String)).length ∧
    0 < tableWidth [["a", "b", "c", "d"], ["1", "2", "3", "4"]] ∧
    composeTableContent tok0 tag0 [["a", "b", "c", "d"], ["1", "2", "3", "4"]] =
      some (linesOf tok0 tag0 [["a", "b", "c", "d"], ["1", "2", "3", "4"]]) :=
  ⟨by decide, by decide,
    ((compose_column_branching tok0 tag0
        [["a", "b", "c", "d"], ["1", "2", "3", "4"]]
        (by decide) (by decide)).1 (by decide)).1⟩

/-- C7 (counterexample): a 3-row, 2-column grid whose rows 1 and 2 are
both flagged as header rows (dominant type numeric, both row majorities
non-numeric) has zero data rows, yet the linearizer returns `[""]` — a
one-element sequence holding the empty string, not the empty
sequence, and a non-empty (truthy) list is appended by the caller. -/
theorem compose_zero_data_rows_nonempty :
    dataRowsOf tok0 tag0 [["A", "B"], ["ABC", "12"], ["abc", "34"]] = [] ∧
    composeTableContent tok0 tag0 [["A", "B"], ["ABC", "12"], ["abc", "34"]] =
      some [""] ∧
    (some [""] : Option (List String)) ≠ some [] :=
  ⟨by decide, by decide, by decide⟩

/-- C7 (amended): a grid with fewer than 2 rows yields the empty
sequence; a grid (with at least 2 rows and a column) whose header/data
partition leaves zero data rows yields the empty sequence when it has
more than 3 columns, but a single empty-string entry when it has at
most 3 columns. -/
theorem compose_degenerate (tok : String → List String)
    (tag : String → String) (rows : List (List String)) :
    (rows.length < 2 → composeTableContent tok tag rows = some []) ∧
    (2 ≤ rows.length → 0 < tableWidth rows → dataRowsOf tok tag rows = [] →
      composeTableContent tok tag rows =
        some (if 3 < tableWidth rows then [] else [""])) := by
  constructor
  · intro hlt
    unfold composeTableContent
    rw [if_pos hlt]
  · intro h2 hw hdata
    have hmem : blockType tok tag (cellOf rows 1 0) ∈ allTypes tok tag rows := by
      unfold allTypes
      refine List.mem_flatMap.2 ⟨1, List.mem_range'_1.2 ⟨le_refl 1, by omega⟩, ?_⟩
      exact List.mem_map.2 ⟨0, List.mem_range.2 hw, rfl⟩
    have hne := List.ne_nil_of_mem hmem
    have hlines : linesOf tok tag rows = [] := by
      unfold linesOf
      rw [hdata]
      rfl
    unfold composeTableContent
    rw [if_neg (by omega), if_neg hne, hlines]
    split
    · rfl
    · rfl

/-- C7 (witness): the zero-data-row grid satisfies the hypotheses and
the narrow branch yields the single empty-string entry. -/
theorem compose_degenerate_witness :
    2 ≤ ([["A", "B"], ["ABC", "12"], ["abc", "34"]] :
      List (List String)).length ∧
    0 < tableWidth [["A", "B"], ["ABC", "12"], ["abc", "34"]] ∧
    dataRowsOf tok0 tag0 [["A", "B"], ["ABC", "12"], ["abc", "34"]] = [] ∧
    composeTableContent tok0 tag0 [["A", "B"], ["ABC", "12"], ["abc", "34"]] =
      some (if 3 < tableWidth [["A", "B"], ["ABC", "12"], ["abc", "34"]]
            then [] else [""]) :=
  ⟨by decide, by decide, by decide,
    (compose_degenerate tok0 tag0
      [["A", "B"], ["ABC", "12"], ["abc", "34"]]).2
      (by decide) (by decide) (by decide)⟩

/-- C8 (counterexample): on a ragged grid whose last row misses its
second cell, the missing cell is not skipped as an empty string would
be: the data line for the short row is not `"H1: 3"` alone. -/
theorem compose_ragged_claim_false :
    composeTableContent tok0 tag0 [["H1", "H2"], ["1", "2"], ["3"]] ≠
      some ["H1: 1;H2: 2\nH1: 3"] := by decide

/-- C8 (amended): a ragged grid is padded by the DataFrame with `None`,
stringified as `"None"`: a missing data cell is emitted as the text
`None` under its column's header label (it is truthy, so not skipped),
and a missing header cell contributes the label `"None: "`. -/
theorem compose_ragged_none_cells :
    composeTableContent tok0 tag0 [["H1", "H2"], ["1", "2"], ["3"]] =
      some ["H1: 1;H2: 2\nH1: 3;H2: None"] ∧
    composeTableContent tok0 tag0 [["H"], ["1", "2"], ["3", "4"]] =
      some ["H: 1;None: 2\nH: 3;None: 4"] :=
  ⟨by decide, by decide⟩

end OdtParse

